import Mathlib

/-!
Verification development for the toshi-ethereum-service transaction pipeline.

The definitions below are a shallow embedding of the two source files that
implement the pipeline:

* `src/tokeneth/jsonrpc.py` — the intake path (`TokenEthJsonRPC.send_transaction`);
* `src/toshieth/manager.py` — the queue processor
  (`TransactionQueueHandler.process_transaction_queue`,
  `_process_transaction_queue` and `update_transaction`).

Database tables are embedded as lists of rows, redis keys as explicit values,
and every chain RPC as an oracle parameter.  Python integers are `Nat`/`Int`
(balances can go negative after subtracting pending costs, so they are `Int`).
-/

namespace ToshiEth

/-- Transaction status enumeration, `status ∈ {new, queued, unconfirmed, confirmed, error}`. -/
inductive Status where
  | new
  | queued
  | unconfirmed
  | confirmed
  | error
deriving DecidableEq, Repr

/-! ## Intake: `tokeneth/jsonrpc.py`, `TokenEthJsonRPC.send_transaction`

The model starts from the decoded, signature-attached transaction (lines
126-163 of the source deal with hex decoding and signature attachment and are
not needed by any claim).  `tx.sender` is the sender recovered from the
signature, exactly as `data_encoder(tx.sender)` in the source. -/

/-- A decoded signed transaction as seen by `send_transaction` after signature
attachment (fields used by the source: `nonce`, `value`, `startgas`,
`gasprice`, `sender`, `to`, and its canonical hash). -/
structure SignedTx where
  nonce : Nat
  value : Nat
  startgas : Nat
  gasprice : Nat
  sender : String
  to_address : String
  hash : String
deriving DecidableEq, Repr

/-- A row of the `transactions` table in the tokeneth schema, as used by
`send_transaction`: the duplicate check reads `from_address`, `nonce` and
`last_status`, and the insert at lines 220-226 writes exactly these columns. -/
structure DbRow where
  transaction_hash : String
  from_address : String
  to_address : String
  nonce : Nat
  value : Nat
  estimated_gas_cost : Nat
  sender_token_id : Option String
  last_status : Status
deriving DecidableEq, Repr

/-- Errors surfaced by `send_transaction` (constructors named after the branch
that raises them). -/
inductive RPCErr where
  | invalidNonceAlreadyUsed
  | insufficientFunds
  | nonceTooLow
  | nonceTooHigh
  | internalError
deriving DecidableEq, Repr

/-- The `id` field of the JSON-RPC error payload raised in each branch. -/
def errId : RPCErr → String
  | .invalidNonceAlreadyUsed => "invalid_nonce"
  | .insufficientFunds => "insufficient_funds"
  | .nonceTooLow => "invalid_nonce"
  | .nonceTooHigh => "invalid_nonce"
  | .internalError => "unexpected_error"

/-- The `message` field of the JSON-RPC error payload raised in each branch. -/
def errMessage : RPCErr → String
  | .invalidNonceAlreadyUsed => "Nonce already used"
  | .insufficientFunds => "Insufficient Funds"
  | .nonceTooLow => "Provided nonce is too low"
  | .nonceTooHigh => "Provided nonce is too high"
  | .internalError => "An error occured communicating with the ethereum network, try again later"

/-- Result of a `send_transaction` call: either the transaction hash returned
to the client, or the error raised. -/
inductive SendResult where
  | accepted (txHash : String)
  | rejected (e : RPCErr)
deriving DecidableEq, Repr

/-- Full outcome of a `send_transaction` call: result, transactions table
afterwards, cached nonce hint afterwards, and whether
`eth_sendRawTransaction` was invoked. -/
structure SendTxOutcome where
  result : SendResult
  db : List DbRow
  cachedNonce : Option Nat
  broadcast : Bool
deriving DecidableEq, Repr

/-- Modelled from the spec: the `transactions` table schema (its DDL is not
under `src/`) supplies the status of a newly inserted row, since the INSERT at
`jsonrpc.py` lines 220-226 names no status column.  Per the spec ("Insert the
transaction row with status `unconfirmed`") the default is `unconfirmed`. -/
def defaultInsertStatus : Status := .unconfirmed

/-- Modelled from the spec: `BalanceMixin.get_balances` lives in
`tokeneth/mixins.py`, which is not under `src/`.  Per the spec: "Read current
balance (confirmed minus outstanding cost of this sender's own unconfirmed
outgoing)"; `send_transaction` passes `ignore_pending_recieved=True`, so
inbound pending funds are ignored.  Returns
`(confirmed network balance, balance usable for the submission)`. -/
def get_balances (chainBalance : Nat) (db : List DbRow) (addr : String) : Int × Int :=
  let outgoing := db.filter fun r => decide (r.from_address = addr ∧ r.last_status = .unconfirmed)
  let outgoingCost : Nat := (outgoing.map fun r => r.value + r.estimated_gas_cost).sum
  ((chainBalance : Int), (chainBalance : Int) - (outgoingCost : Int))

/-- The nonce the submission is validated against (`jsonrpc.py` lines
192-199): the cached redis hint, bumped up to the network's
`eth_getTransactionCount` when that is higher or when no hint is cached. -/
def effectiveNonce (cachedNonce : Option Nat) (nwNonce : Nat) : Nat :=
  match cachedNonce with
  | some c => if nwNonce > c then nwNonce else c
  | none => nwNonce

/-- `TokenEthJsonRPC.send_transaction` (`jsonrpc.py` lines 165-235), from the
point where the `(sender, nonce)` submission lock has been acquired.
Parameters model the externals read inside the lock: `cachedNonce` is the
redis `nonce:<sender>` hint, `nwNonce` the chain `eth_getTransactionCount`,
`chainBalance` the confirmed balance used by `get_balances`, `sendOk` whether
`eth_sendRawTransaction` succeeds, and `userTokenId` the authenticated client
identity stored as `sender_token_id`. -/
def send_transaction (db : List DbRow) (tx : SignedTx) (cachedNonce : Option Nat)
    (nwNonce : Nat) (chainBalance : Nat) (sendOk : Bool) (userTokenId : Option String) :
    SendTxOutcome :=
  -- lines 174-181: disallow transaction overwriting for known transactions
  if db.any fun r => decide (r.from_address = tx.sender ∧ r.nonce = tx.nonce ∧ r.last_status ≠ .error) then
    ⟨.rejected .invalidNonceAlreadyUsed, db, cachedNonce, false⟩
  else
    -- lines 183-190: make sure the account has enough funds for the transaction
    let balance := (get_balances chainBalance db tx.sender).2
    if balance < ((tx.value + tx.startgas * tx.gasprice : Nat) : Int) then
      ⟨.rejected .insufficientFunds, db, cachedNonce, false⟩
    else
      -- lines 192-204: validate the nonce
      let cNonce := effectiveNonce cachedNonce nwNonce
      if tx.nonce < cNonce then
        ⟨.rejected .nonceTooLow, db, cachedNonce, false⟩
      else if cNonce < tx.nonce then
        ⟨.rejected .nonceTooHigh, db, cachedNonce, false⟩
      -- lines 206-215: send the transaction to the network
      else if sendOk then
        -- lines 217-226: cache nonce, add tx to database
        ⟨.accepted tx.hash,
         db ++ [⟨tx.hash, tx.sender, tx.to_address, tx.nonce, tx.value,
                 tx.startgas * tx.gasprice, userTokenId, defaultInsertStatus⟩],
         some (tx.nonce + 1), true⟩
      else
        ⟨.rejected .internalError, db, cachedNonce, true⟩

/-! ## Queue processor: `toshieth/manager.py`, `TransactionQueueHandler`

A row of the toshieth `transactions` table.  `hasSignature` models
`r IS NOT NULL` / `v IS NOT NULL` (the queue only considers rows with a
signature); the actual `(v, r, s)` values only matter through the sender
recovered from them, which is the `recover` oracle of `PassEnv` below. -/
structure Tx where
  transaction_id : Nat
  hash : String
  from_address : String
  to_address : String
  nonce : Nat
  value : Nat
  gas : Nat
  gas_price : Nat
  hasSignature : Bool
  status : Status
  blocknumber : Option Nat
deriving DecidableEq, Repr

/-- A row of the `token_transactions` table joined with `tokens`
(`manager.py` lines 316-321).  Only the columns the update path reads are
kept; the joined `symbol`, `name` and `decimals` are fetched but never used
by `update_transaction`. -/
structure TokenTx where
  transaction_id : Nat
  transaction_log_index : Nat
  contract_address : String
  from_address : String
  to_address : String
  value : Nat
  status : Status
deriving DecidableEq, Repr

/-- An entry of a transaction receipt's `logs` array, as read by the Transfer
event scan at `manager.py` lines 388-401. -/
structure LogEntry where
  address : String
  topics : List String
deriving DecidableEq, Repr

/-- What a dispatched message renders as: a plain `SOFA::Payment` or a
`SOFA::TokenPayment` for the given contract. -/
inductive MsgKind where
  | payment
  | tokenPayment (contract : String)
deriving DecidableEq, Repr

/-- A pending message as built by `update_transaction`:
`(from_address, to_address, status, payload kind)` (`manager.py` lines 369,
419, 433, 441). -/
abbrev Message := String × String × Status × MsgKind

/-- The zero address tested by the WETH deposit/withdrawal check at
`manager.py` line 429. -/
def zeroAddress : String := "0x0000000000000000000000000000000000000000"

/-- Externals of `update_transaction`.  `getTxByHash` models
`eth_getTransactionByHash` (`none`: unknown hash; `some bn?`: known, with
optional block number); `getTxReceipt` models `eth_getTransactionReceipt`
(outer `none`: no receipt; inner `Option`: the receipt's `logs` array, which
the source guards against being `None` at line 387).  `decodeAddr` models
`decode_single_address` and the four strings model `TRANSFER_TOPIC`,
`DEPOSIT_TOPIC`, `WITHDRAWAL_TOPIC` and `WETH_CONTRACT_ADDRESS`; all five
come from library modules (`toshi.ethereum.utils`, `toshieth/constants.py`)
that are not under `src/`, so they are opaque parameters here. -/
structure UpdateEnv where
  getTxByHash : String → Option (Option Nat)
  getTxReceipt : String → Option (Option (List LogEntry))
  decodeAddr : String → String
  transferTopic : String
  depositTopic : String
  withdrawalTopic : String
  wethAddress : String

/-- Outcome of one `update_transaction` call: the `transactions` and
`token_transactions` tables afterwards, the notifications dispatched
(recipient, payload status, payload kind), the `update_token_cache` triggers
(contract, from, to) handed to the erc20 worker, and whether the call
re-queued itself (no block number yet for a `confirmed` update, or no receipt
for a confirmed token transaction). -/
structure UpdateResult where
  db : List Tx
  tokenDb : List TokenTx
  notifications : List (String × Status × MsgKind)
  tokenCacheUpdates : List (String × String × String)
  requeued : Bool
deriving DecidableEq, Repr

/-- The `token_txs` fetch at `manager.py` lines 316-321: rows of
`token_transactions` for this transaction whose contract has a row in
`tokens` (the JOIN's only effect on this code path). -/
def tokenTxsFor (tokenDb : List TokenTx) (tokens : List String) (transaction_id : Nat) :
    List TokenTx :=
  tokenDb.filter fun tt =>
    decide (tt.transaction_id = transaction_id ∧ tt.contract_address ∈ tokens)

/-- The `transactions`-table write of `update_transaction` (`manager.py`
lines 332-358), after the guards: `none` means the `confirmed` update found
no block number on the node and the call re-queues itself without writing. -/
def txWrite (getTxByHash : String → Option (Option Nat)) (db : List Tx)
    (transaction_id : Nat) (status : Status) (tx : Tx) : Option (List Tx) :=
  if status = .confirmed then
    match getTxByHash tx.hash with
    | some (some bn) =>
      some (db.map fun t =>
        if t.transaction_id = transaction_id then
          { t with status := .confirmed, blocknumber := some bn }
        else t)
    | _ => none
  else
    some (db.map fun t =>
      if t.transaction_id = transaction_id then { t with status := status } else t)

/-- The Transfer / WETH Deposit / Withdrawal event scan at `manager.py` lines
386-401: whether some receipt log matches the token transfer (`none` logs, as
guarded at line 387, match nothing).  The source indexes `topics[0..2]`
without a length check in the WETH arm; missing entries are read as `""`. -/
def hasTransferEvent (env : UpdateEnv) (logs : Option (List LogEntry))
    (fromA toA : String) : Bool :=
  match logs with
  | none => false
  | some logs =>
    logs.any fun lg =>
      if 2 < lg.topics.length then
        decide (lg.topics.getD 0 "" = env.transferTopic ∧
                env.decodeAddr (lg.topics.getD 1 "") = fromA ∧
                env.decodeAddr (lg.topics.getD 2 "") = toA)
      else if lg.address = env.wethAddress then
        decide ((lg.topics.getD 0 "" = env.depositTopic ∧
                 env.decodeAddr (lg.topics.getD 1 "") = toA) ∨
                (lg.topics.getD 0 "" = env.withdrawalTopic ∧
                 env.decodeAddr (lg.topics.getD 1 "") = fromA))
      else false

/-- The `token_transactions` status write at `manager.py` lines 420-425. -/
def setTokenStatus (tokenDb : List TokenTx) (transaction_id log_index : Nat) (st : Status) :
    List TokenTx :=
  tokenDb.map fun t =>
    if t.transaction_id = transaction_id ∧ t.transaction_log_index = log_index then
      { t with status := st }
    else t

/-- Accumulator of the per-token-row loop at `manager.py` lines 380-433. -/
structure TokenStepAcc where
  tokenDb : List TokenTx
  messages : List Message
  tokenCacheUpdates : List (String × String × String)
deriving DecidableEq, Repr

/-- One iteration of the token loop (`manager.py` lines 380-433): on a
`confirmed` update the receipt decides between `confirmed` (with a token
cache refresh) and `error`; a `SOFA::TokenPayment` is appended only when the
row confirms; the row's status is written; WETH rows touching the zero
address additionally append a plain `SOFA::Payment` carrying the (renamed)
transaction status. -/
def processTokenTx (env : UpdateEnv) (transaction_id : Nat) (status1 : Status)
    (logs : Option (List LogEntry)) (acc : TokenStepAcc) (tt : TokenTx) : TokenStepAcc :=
  let token_tx_status :=
    if status1 = .confirmed then
      if hasTransferEvent env logs tt.from_address tt.to_address then Status.confirmed
      else Status.error
    else status1
  let cacheUpd :=
    if status1 = .confirmed ∧ hasTransferEvent env logs tt.from_address tt.to_address then
      [(tt.contract_address, tt.from_address, tt.to_address)]
    else []
  let msgs1 : List Message :=
    if token_tx_status = .confirmed then
      [(tt.from_address, tt.to_address, token_tx_status, MsgKind.tokenPayment tt.contract_address)]
    else []
  let msgs2 : List Message :=
    if tt.contract_address = env.wethAddress ∧
        (tt.from_address = zeroAddress ∨ tt.to_address = zeroAddress) then
      [(tt.from_address, tt.to_address, status1, MsgKind.payment)]
    else []
  ⟨setTokenStatus acc.tokenDb transaction_id tt.transaction_log_index token_tx_status,
   acc.messages ++ msgs1 ++ msgs2,
   acc.tokenCacheUpdates ++ cacheUpd⟩

/-- The dispatch loop at `manager.py` lines 443-461: each message notifies
its `from_address`; a contract-deployment `to_address` (`"0x"`) returns from
the whole function, dropping the remaining messages; a stored status of
`new` notifies the `to_address` only for non-`error` payloads; otherwise the
`to_address` is always notified. -/
def dispatchMessages (storedStatus : Status) : List Message → List (String × Status × MsgKind)
  | [] => []
  | (fromA, toA, st, k) :: rest =>
    (fromA, st, k) ::
    if toA = "0x" then []
    else
      (if storedStatus = .new then
        (if st ≠ .error then [(toA, st, k)] else [])
      else [(toA, st, k)]) ++
      dispatchMessages storedStatus rest

/-- `TransactionQueueHandler.update_transaction` (`manager.py` lines
308-465): the guards (missing row, same status, stored `confirmed`), the
`transactions` write, the queued-rename / duplicate suppression, and the
rendering — the token branch at lines 372-434 when `token_transactions` rows
reference the transaction, else the plain `SOFA::Payment` path — followed by
the dispatch loop. -/
def update_transaction (env : UpdateEnv) (db : List Tx) (tokenDb : List TokenTx)
    (tokens : List String) (transaction_id : Nat) (status : Status) : UpdateResult :=
  match db.find? fun t => decide (t.transaction_id = transaction_id) with
  | none => ⟨db, tokenDb, [], [], false⟩                     -- line 313: tx is None
  | some tx =>
    if tx.status = status then ⟨db, tokenDb, [], [], false⟩  -- line 313: same status
    else if tx.status = .confirmed then ⟨db, tokenDb, [], [], false⟩  -- lines 324-326
    else
      match txWrite env.getTxByHash db transaction_id status tx with
      | none => ⟨db, tokenDb, [], [], true⟩     -- lines 343-353: retry later
      | some db' =>
        -- lines 360-367: rename `queued`, suppress `queued → unconfirmed`
        if status = .unconfirmed ∧ tx.status = .queued then ⟨db', tokenDb, [], [], false⟩
        else
          let status1 := if status = .queued then Status.unconfirmed else status
          let token_txs := tokenTxsFor tokenDb tokens transaction_id
          if token_txs.isEmpty then
            -- lines 435-441: plain value transfer
            ⟨db', tokenDb,
             dispatchMessages tx.status
               [(tx.from_address, tx.to_address, status1, MsgKind.payment)],
             [], false⟩
          else
            -- lines 372-379: confirming a token transaction needs the receipt
            match if status1 = .confirmed then env.getTxReceipt tx.hash else some none with
            | none => ⟨db', tokenDb, [], [], true⟩
            | some logs =>
              let step := token_txs.foldl (processTokenTx env transaction_id status1 logs)
                ⟨tokenDb, [], []⟩
              ⟨db', step.tokenDb, dispatchMessages tx.status step.messages,
               step.tokenCacheUpdates, false⟩

/-- The `transactions`-table effect of an `update_transaction` call (the
guards of lines 311-326 plus the write of lines 332-358), used by the queue
processor when it transitions rows; the token branch never touches this
table. -/
def update_transaction_db (getTxByHash : String → Option (Option Nat)) (db : List Tx)
    (transaction_id : Nat) (status : Status) : List Tx :=
  match db.find? fun t => decide (t.transaction_id = transaction_id) with
  | none => db
  | some tx =>
    if tx.status = status then db
    else if tx.status = .confirmed then db
    else (txWrite getTxByHash db transaction_id status tx).getD db

/-- The drain loops at `manager.py` lines 210-214 and 294-297: walk the
remaining candidates in order and move each row whose fetched status was
`new` to `queued`. -/
def markNewQueued (getTxByHash : String → Option (Option Nat)) (db : List Tx)
    (ts : List Tx) : List Tx :=
  ts.foldl
    (fun d t => if t.status = .new then update_transaction_db getTxByHash d t.transaction_id .queued else d)
    db

/-- The `transactions_in` query at `manager.py` lines 267-274: inbound rows to
`addr` that are `new`, `queued`, `unconfirmed`, or `confirmed` above the last
processed block. -/
def transactionsIn (db : List Tx) (addr : String) (lastBlock : Nat) : List Tx :=
  db.filter fun p => decide (p.to_address = addr ∧
    (p.status = .new ∨ p.status = .queued ∨ p.status = .unconfirmed ∨
     (p.status = .confirmed ∧ p.blocknumber.getD 0 > lastBlock)))

/-- `value + gas * gas_price` of a row (`manager.py` lines 195-198). -/
def txCost (t : Tx) : Int := ((t.value + t.gas * t.gas_price : Nat) : Int)

/-- The `pending_received` sum at `manager.py` line 277. -/
def pendingReceived (db : List Tx) (addr : String) (lastBlock : Nat) : Int :=
  ((((transactionsIn db addr lastBlock).map fun p => p.value).sum : Nat) : Int)

/-- The check at `manager.py` line 286: some inbound transaction confirmed
above the last processed block, so the address's own queue is re-checked. -/
def hasNewlyConfirmedIn (db : List Tx) (addr : String) (lastBlock : Nat) : Bool :=
  (transactionsIn db addr lastBlock).any fun p => decide (p.blocknumber.getD 0 > lastBlock)

/-- Setting a list of candidates to `error` in order, as the cascade at
`manager.py` lines 121-126 does once `previous_error` is set. -/
def cascadeError (getTxByHash : String → Option (Option Nat)) (db : List Tx)
    (ts : List Tx) : List Tx :=
  ts.foldl (fun d t => update_transaction_db getTxByHash d t.transaction_id .error) db

/-- Removal of the first list entry with a given `transaction_id`
(`manager.py` lines 157-162: `next(...)` followed by `del`). -/
def removeFirstById (transaction_id : Nat) : List Tx → List Tx
  | [] => []
  | x :: xs => if x.transaction_id = transaction_id then xs else x :: removeFirstById transaction_id xs

/-- Insertion into a nonce-ascending list. -/
def insertByNonce (t : Tx) : List Tx → List Tx
  | [] => [t]
  | x :: xs => if t.nonce ≤ x.nonce then t :: x :: xs else x :: insertByNonce t xs

/-- Nonce-ascending ordering of the fetched rows.  The source fetches
`ORDER BY nonce DESC` and pops from the end of the Python list, i.e. it
consumes candidates in ascending nonce order; the model keeps the list
ascending and consumes it from the front. -/
def sortByNonce (l : List Tx) : List Tx := l.foldr insertByNonce []

/-- Outcome of `eth_sendRawTransaction` for a queued candidate:
accepted, rejected with a message starting with "Transaction nonce is too
low" / "Transaction with the same hash was already imported" (lines 243-244),
or rejected with any other `JsonRPCError`. -/
inductive SendOutcome where
  | ok
  | nonceLowOrImported
  | otherError
deriving DecidableEq, Repr

/-- Environment of one `_process_transaction_queue` pass: the address whose
queue is processed and the externals the pass reads.  `getBalance` is
`eth_getBalance(addr)` at the last processed block, `networkNonce` is
`eth_getTransactionCount(addr)`, `lastBlock` the `last_blocknumber` marker,
`safeLow` the cached `gas_station_safelow_gas_price` (absent key ↦ `none`),
`recover` the sender recovered from a row's stored signature
(`create_transaction(...).sender`), `sendOutcome` the node's response to
broadcasting a row, and `getTxByHash` as in `update_transaction`. -/
structure PassEnv where
  addr : String
  getBalance : Nat
  networkNonce : Nat
  lastBlock : Nat
  safeLow : Option Nat
  recover : Tx → String
  sendOutcome : Tx → SendOutcome
  getTxByHash : String → Option (Option Nat)

/-- Mutable state of the candidate loop at `manager.py` lines 118-298, plus
the pass-level observables: `sent` records every row passed to
`eth_sendRawTransaction` in order, `retry60` whether a retry pass was
scheduled with a 60 s delay, `aborted` whether the pass hit the
unconfirmed-out-of-order `return` at line 193. -/
structure LoopState where
  db : List Tx
  balance : Int
  nonce : Nat
  prevError : Bool
  toCheck : List String
  sent : List Tx
  retry60 : Bool
  aborted : Bool
deriving DecidableEq, Repr

/-- Whether one candidate step ends the pass (`break` / emptied list) or
continues with the next candidate. -/
inductive StepRes where
  | stop (s : LoopState)
  | next (s : LoopState)
deriving DecidableEq, Repr

/-- The body at `manager.py` lines 195-298: the balance / gas-price /
signature / broadcast handling for one candidate `t` whose nonce passed the
checks, with `rest` the candidates still queued behind it. -/
def sendStep (env : PassEnv) (t : Tx) (rest : List Tx) (s : LoopState) : StepRes :=
  if txCost t ≤ s.balance then
    -- lines 203-214: gas-price floor check (`safe_gas_price and safe_gas_price > gas_price`;
    -- a cached 0 is falsy in Python, and `getD 0 > gas_price` is false then too)
    if env.safeLow.getD 0 > t.gas_price then
      .stop { s with retry60 := true,
                     db := markNewQueued env.getTxByHash s.db (t :: rest) }
    -- lines 216-232: re-derive the sender from the stored signature
    else if env.recover t ≠ env.addr then
      .next { s with prevError := true,
                     db := update_transaction_db env.getTxByHash s.db t.transaction_id .error,
                     toCheck := s.toCheck ++ [t.to_address] }
    else
      -- lines 233-261: broadcast
      match env.sendOutcome t with
      | .ok =>
        .next { s with db := update_transaction_db env.getTxByHash s.db t.transaction_id .unconfirmed,
                       sent := s.sent ++ [t],
                       balance := s.balance - txCost t,
                       nonce := if s.nonce = t.nonce then s.nonce + 1 else s.nonce }
      | .nonceLowOrImported =>
        match env.getTxByHash t.hash with
        | some (some _bn) =>
          .next { s with sent := s.sent ++ [t],
                         db := update_transaction_db env.getTxByHash s.db t.transaction_id .confirmed }
        | some none =>
          .next { s with sent := s.sent ++ [t],
                         db := update_transaction_db env.getTxByHash s.db t.transaction_id .unconfirmed }
        | none =>
          .next { s with sent := s.sent ++ [t], prevError := true,
                         db := update_transaction_db env.getTxByHash s.db t.transaction_id .error,
                         toCheck := s.toCheck ++ [t.to_address] }
      | .otherError =>
        .next { s with sent := s.sent ++ [t], prevError := true,
                       db := update_transaction_db env.getTxByHash s.db t.transaction_id .error,
                       toCheck := s.toCheck ++ [t.to_address] }
  else
    -- lines 262-298: make sure the pending balance would support this transaction
    if s.balance + pendingReceived s.db env.addr env.lastBlock < txCost t then
      .next { s with prevError := true,
                     db := update_transaction_db env.getTxByHash s.db t.transaction_id .error,
                     toCheck := s.toCheck ++ [t.to_address] }
    else
      .stop { s with db := markNewQueued env.getTxByHash s.db (t :: rest),
                     toCheck := s.toCheck ++
                       (if hasNewlyConfirmedIn s.db env.addr env.lastBlock then [env.addr] else []) }

/-- The candidate loop at `manager.py` lines 118-298, fuelled: one unit of
fuel per iteration.  `passLoop` below always supplies enough fuel
(`ts.length`), so the out-of-fuel arm is unreachable; fuel only makes the
recursion structural. -/
def passLoopF (env : PassEnv) : Nat → List Tx → LoopState → LoopState
  | _, [], s => s
  | 0, _ :: _, s => s
  | fuel + 1, t :: rest, s =>
    -- lines 121-126: if there was a previous error in the queue, abort!
    if s.prevError then
      passLoopF env fuel rest
        { s with db := update_transaction_db env.getTxByHash s.db t.transaction_id .error,
                 toCheck := s.toCheck ++ [t.to_address] }
    -- line 129: make sure the nonce is still valid
    else if t.nonce ≠ s.nonce ∧ t.nonce ≠ env.networkNonce then
      if t.status = .new then
        -- lines 131-180: check if this is an overwrite
        match s.db.find? fun o =>
            decide (o.from_address = env.addr ∧ o.nonce = t.nonce ∧ o.hash ≠ t.hash) with
        | some old_tx =>
          if old_tx.status = .error then
            -- expected state for overwrites: carry on
            match sendStep env t rest s with
            | .stop s' => s'
            | .next s' => passLoopF env fuel rest s'
          else if old_tx.status = .unconfirmed ∨ old_tx.status = .confirmed then
            -- lines 138-145
            passLoopF env fuel rest
              { s with prevError := true,
                       db := update_transaction_db env.getTxByHash s.db t.transaction_id .error,
                       toCheck := s.toCheck ++ [t.to_address] }
          else if t.nonce > old_tx.nonce then
            -- lines 149-162 ("lets use this one!")
            let s1 := { s with db := update_transaction_db env.getTxByHash s.db old_tx.transaction_id .error,
                               toCheck := s.toCheck ++ [old_tx.to_address] }
            let rest' := removeFirstById old_tx.transaction_id rest
            match sendStep env t rest' s1 with
            | .stop s' => s'
            | .next s' => passLoopF env fuel rest' s'
          else
            -- lines 163-175 ("we'll use the other one"): empty the queue and stop
            { s with db := update_transaction_db env.getTxByHash s.db t.transaction_id .error,
                     toCheck := s.toCheck ++ [t.to_address, t.from_address] }
        | none =>
          -- lines 177-180: a transaction in the nonce sequence is missing; let things go on
          match sendStep env t rest s with
          | .stop s' => s'
          | .next s' => passLoopF env fuel rest s'
      else if t.status = .queued then
        -- lines 181-188
        passLoopF env fuel rest
          { s with prevError := true,
                   db := update_transaction_db env.getTxByHash s.db t.transaction_id .error,
                   toCheck := s.toCheck ++ [t.to_address] }
      else
        -- lines 189-193: unconfirmed row with out-of-order nonce; return
        { s with aborted := true }
    else
      match sendStep env t rest s with
      | .stop s' => s'
      | .next s' => passLoopF env fuel rest s'

/-- The candidate loop with the fuel it actually needs. -/
def passLoop (env : PassEnv) (ts : List Tx) (s : LoopState) : LoopState :=
  passLoopF env ts.length ts s

/-- `TransactionQueueHandler._process_transaction_queue` (`manager.py` lines
60-306) for `env.addr`, over the transactions table `db`. -/
def processQueue (env : PassEnv) (db : List Tx) : LoopState :=
  -- lines 70-78: candidates with a signature, status new/queued, by nonce
  let transactions_out := sortByNonce (db.filter fun t =>
    decide (t.from_address = env.addr ∧ (t.status = .new ∨ t.status = .queued) ∧
            t.hasSignature = true))
  if transactions_out.isEmpty then
    ⟨db, 0, 0, false, [], [], false, false⟩
  else
    -- lines 95-102: the sender's unconfirmed rows (or confirmed above last block)
    let unconfirmed_txs := sortByNonce (db.filter fun t =>
      decide (t.from_address = env.addr ∧ (t.status = .unconfirmed ∨
              (t.status = .confirmed ∧ t.blocknumber.getD 0 > env.lastBlock))))
    -- lines 104-111: starting nonce and balance
    let start : Nat × Int :=
      match unconfirmed_txs.getLast? with
      | some lastTx =>
        (lastTx.nonce + 1,
         (env.getBalance : Int) -
           (((unconfirmed_txs.map fun u => u.value + u.gas * u.gas_price).sum : Nat) : Int))
      | none => (env.networkNonce, (env.getBalance : Int))
    passLoop env transactions_out ⟨db, start.2, start.1, false, [], [], false, false⟩

/-! ## The per-address queue lock: `process_transaction_queue`
(`manager.py` lines 33-58)

The redis keys for one address are modelled as two booleans: `processing`
(presence of `processing_tx_queue:<addr>`) and `rerun` (presence of
`processing_tx_queue:<addr>:should_re_run`).  Interleaved writers are
modelled by an interference trace: entry `k` of the trace tells whether some
other caller set the rerun flag while pass `k` ran.  Passes beyond the end of
the trace experience no interference. -/

/-- Number of `_process_transaction_queue` passes performed by the
`while should_run` loop at lines 43-54: after each pass the flag is read and
cleared atomically (the `multi_exec` at lines 45-50), and the loop continues
exactly when the read returned the flag set.  `flag` is the rerun flag's
value when the loop is entered. -/
def queueRun : Bool → List Bool → Nat
  | flag, [] => 1 + (if flag then 1 else 0)
  | flag, b :: rest => 1 + (if flag || b then queueRun false rest else 0)

/-- Number of leading `true` entries of a list. -/
def leadingTrues : List Bool → Nat
  | [] => 0
  | b :: rest => if b then 1 + leadingTrues rest else 0

/-- State of the two cache keys for one address. -/
structure CacheState where
  processing : Bool
  rerun : Bool
deriving DecidableEq, Repr

/-- `TransactionQueueHandler.process_transaction_queue` (`manager.py` lines
33-58): returns the cache state for the address after the call and the number
of `_process_transaction_queue` passes performed by this call. -/
def process_transaction_queue (c : CacheState) (interference : List Bool) :
    CacheState × Nat :=
  if c.processing then
    -- lines 40-42: someone else holds the lock; record the rerun request and return
    ({ c with rerun := true }, 0)
  else
    -- lines 43-58: run passes until a read-and-clear returns the flag unset,
    -- then delete the lock
    (⟨false, false⟩, queueRun c.rerun interference)

/-! ## Concrete instances used to evaluate the model -/

/-- A confirmed row (used to check the `confirmed`-is-terminal guard). -/
def txC2 : Tx := ⟨1, "0xh", "0xa", "0xb", 0, 5, 1, 1, true, .confirmed, some 3⟩

/-- An update environment whose oracles return nothing. -/
def envC2 : UpdateEnv := ⟨fun _ => none, fun _ => none, fun s => s, "tA", "tB", "tC", "0xweth"⟩

/-- An unconfirmed contract deployment (`to_address = "0x"`). -/
def txC9bad : Tx := ⟨1, "0xh", "0xa", "0x", 0, 5, 1, 1, true, .unconfirmed, none⟩

/-- A brand-new transaction to a normal counterparty. -/
def txC9good : Tx := ⟨1, "0xh", "0xa", "0xb", 0, 5, 1, 1, true, .new, none⟩

/-- Update environment for the notification scenarios (oracles empty, opaque
topic strings, a fixed WETH address). -/
def envC9 : UpdateEnv := ⟨fun _ => none, fun _ => none, fun s => s, "tT", "tD", "tW", "0xweth"⟩

/-- A brand-new transaction that carries an ERC20 transfer. -/
def txC9tok : Tx := ⟨2, "0xh2", "0xa", "0xc", 0, 5, 1, 1, true, .new, none⟩

/-- The token-transfer row of `txC9tok` for a known (non-WETH) token. -/
def ttC9tok : TokenTx := ⟨2, 0, "0xtok", "0xf", "0xt", 7, .new⟩

/-- A signed submission used to exercise the nonce validation. -/
def txC3 : SignedTx := ⟨3, 100, 21000, 2, "0xs", "0xt", "0xhash3"⟩

/-- An existing non-error row at the same `(sender, nonce)` as `txC4`. -/
def rowC4 : DbRow := ⟨"0xh0", "0xs", "0xt", 3, 1, 1, none, .unconfirmed⟩

/-- A submission whose cost exceeds the sender's balance. -/
def txC4 : SignedTx := ⟨3, 1000, 21000, 2, "0xs", "0xt", "0xhash4"⟩

/-- A submission that sails through every check. -/
def txC5 : SignedTx := ⟨3, 100, 21000, 2, "0xs", "0xt", "0xhash5"⟩

/-- Queue-processor scenario for the overwrite-resolution branch: an old
`queued` row without a stored signature and an incoming `new` row at the same
`(sender, nonce)` with a strictly higher gas price. -/
def txOldC1 : Tx := ⟨1, "0xa1", "0xsender", "0xb", 5, 10, 1, 1, false, .queued, none⟩

/-- The incoming overwrite attempt (higher `gas_price` than `txOldC1`). -/
def txNewC1 : Tx := ⟨2, "0xa2", "0xsender", "0xc", 5, 10, 1, 100, true, .new, none⟩

/-- Environment for the overwrite scenario: the expected next nonce is 6, so
nonce 5 mismatches and triggers the overwrite check. -/
def envC1 : PassEnv :=
  ⟨"0xsender", 1000000, 6, 10, none, fun _ => "0xsender", fun _ => .ok, fun _ => none⟩

/-- A `new` candidate whose gas price (10) is below the cached floor but whose
cost (110) exceeds the balance. -/
def txC6 : Tx := ⟨1, "0xh1", "0xa", "0xb", 0, 100, 1, 10, true, .new, none⟩

/-- Environment with balance 5 and safe-low floor 50. -/
def envC6 : PassEnv :=
  ⟨"0xa", 5, 0, 10, some 50, fun _ => "0xa", fun _ => .ok, fun _ => none⟩

/-- Loop state entering the gas-floor check with ample balance. -/
def sC6 : LoopState := ⟨[txC6], 1000, 0, false, [], [], false, false⟩

/-- A candidate whose cost (110) exceeds the working balance (5). -/
def txC7 : Tx := ⟨1, "0xh7", "0xa", "0xb", 0, 100, 1, 10, true, .new, none⟩

/-- Environment with no gas-price floor cached. -/
def envC7 : PassEnv :=
  ⟨"0xa", 5, 0, 10, none, fun _ => "0xa", fun _ => .ok, fun _ => none⟩

/-- Loop state for the pending-balance check: balance 5, no inbound rows. -/
def sC7 : LoopState := ⟨[txC7], 5, 0, false, [], [], false, false⟩

/-- A candidate whose stored signature recovers to a different address. -/
def txC10 : Tx := ⟨1, "0xh10", "0xa", "0xb", 0, 1, 1, 1, true, .new, none⟩

/-- Environment whose `recover` oracle returns a foreign address. -/
def envC10 : PassEnv :=
  ⟨"0xa", 100, 0, 10, none, fun _ => "0xother", fun _ => .ok, fun _ => none⟩

/-- Loop state entering the signature check. -/
def sC10 : LoopState := ⟨[txC10], 100, 0, false, [], [], false, false⟩

/-! ## Helper lemmas -/

/-- A transactions table with pairwise distinct primary keys. -/
abbrev UniqueIds (db : List Tx) : Prop :=
  db.Pairwise fun a b => a.transaction_id ≠ b.transaction_id

lemma mem_id_unique {db : List Tx} (h : UniqueIds db) {a b : Tx} (ha : a ∈ db) (hb : b ∈ db)
    (hid : a.transaction_id = b.transaction_id) : a = b := by
  by_contra hne
  exact List.Pairwise.forall (fun _ _ hxy => hxy.symm) h ha hb hne hid

/-- The transactions table after an `update_transaction` call is either
unchanged, or a per-row rewrite that preserves ids, gives the targeted id the
requested status, and leaves every other row alone. -/
lemma utdb_shape (g : String → Option (Option Nat)) (db : List Tx) (i : Nat) (st : Status) :
    update_transaction_db g db i st = db ∨
    ∃ f : Tx → Tx, update_transaction_db g db i st = db.map f ∧
      ∀ t : Tx, (f t).transaction_id = t.transaction_id ∧
        (t.transaction_id = i → (f t).status = st) ∧
        (t.transaction_id ≠ i → f t = t) := by
  unfold update_transaction_db txWrite
  cases hf : db.find? fun t => decide (t.transaction_id = i) with
  | none => exact Or.inl rfl
  | some tx =>
    by_cases h1 : tx.status = st
    · simp [h1]
    · by_cases h2 : tx.status = .confirmed
      · simp [h1, h2]
      · by_cases h3 : st = .confirmed
        · subst h3
          cases hg : g tx.hash with
          | none => simp [h1, h2, hg]
          | some bnOpt =>
            cases bnOpt with
            | none => simp [h1, h2, hg]
            | some bn =>
              refine Or.inr ⟨fun t => if t.transaction_id = i then
                  { t with status := .confirmed, blocknumber := some bn } else t, ?_, ?_⟩
              · simp [h1, h2, hg]
              · intro t
                refine ⟨?_, ?_, ?_⟩ <;> by_cases ht : t.transaction_id = i <;> simp [ht]
        · refine Or.inr ⟨fun t => if t.transaction_id = i then { t with status := st } else t,
            ?_, ?_⟩
          · simp [h1, h2, h3]
          · intro t
            refine ⟨?_, ?_, ?_⟩ <;> by_cases ht : t.transaction_id = i <;> simp [ht]

/-- Every row after an update is either an original row or carries the
targeted id with the requested status. -/
lemma utdb_mem {g : String → Option (Option Nat)} {db : List Tx} {i : Nat} {st : Status}
    {r : Tx} (hr : r ∈ update_transaction_db g db i st) :
    r ∈ db ∨ (r.transaction_id = i ∧ r.status = st) := by
  rcases utdb_shape g db i st with h | ⟨f, hmap, hspec⟩
  · rw [h] at hr; exact Or.inl hr
  · rw [hmap] at hr
    rcases List.mem_map.mp hr with ⟨a, ha, rfl⟩
    by_cases hid : a.transaction_id = i
    · exact Or.inr ⟨(hspec a).1.trans hid, (hspec a).2.1 hid⟩
    · rw [(hspec a).2.2 hid]; exact Or.inl ha

/-- Every original row has an image after an update: same id, and either the
same status or the requested status. -/
lemma utdb_image (g : String → Option (Option Nat)) {db : List Tx} (i : Nat) (st : Status)
    {r : Tx} (hr : r ∈ db) :
    ∃ r' ∈ update_transaction_db g db i st, r'.transaction_id = r.transaction_id ∧
      (r'.status = r.status ∨ r'.status = st) := by
  rcases utdb_shape g db i st with h | ⟨f, hmap, hspec⟩
  · exact ⟨r, by rw [h]; exact hr, rfl, Or.inl rfl⟩
  · refine ⟨f r, by rw [hmap]; exact List.mem_map_of_mem f hr, (hspec r).1, ?_⟩
    by_cases hid : r.transaction_id = i
    · exact Or.inr ((hspec r).2.1 hid)
    · rw [(hspec r).2.2 hid]; exact Or.inl rfl

/-- Updates preserve uniqueness of primary keys. -/
lemma utdb_uniqueIds {g : String → Option (Option Nat)} {db : List Tx} {i : Nat} {st : Status}
    (h : UniqueIds db) : UniqueIds (update_transaction_db g db i st) := by
  rcases utdb_shape g db i st with heq | ⟨f, hmap, hspec⟩
  · rw [heq]; exact h
  · rw [hmap]
    refine List.pairwise_map.mpr (h.imp fun hab => ?_)
    intro hcon
    exact hab ((hspec _).1.symm.trans (hcon.trans (hspec _).1))

/-- Updating a non-`confirmed` row to `error` leaves every row with that id
at status `error` (given unique primary keys). -/
lemma utdb_sets_error {g : String → Option (Option Nat)} {db : List Tx} {i : Nat}
    (hU : UniqueIds db) {r0 : Tx} (hr0 : r0 ∈ db) (hid0 : r0.transaction_id = i)
    (hc : r0.status ≠ .confirmed) :
    ∀ r ∈ update_transaction_db g db i .error, r.transaction_id = i → r.status = .error := by
  unfold update_transaction_db txWrite
  cases hf : db.find? fun t => decide (t.transaction_id = i) with
  | none =>
    exact absurd (decide_eq_true hid0) (List.find?_eq_none.mp hf r0 hr0)
  | some tx =>
    have htxm : tx ∈ db := List.mem_of_find?_eq_some hf
    have htxi : tx.transaction_id = i := by simpa using List.find?_some hf
    have htx0 : tx = r0 := mem_id_unique hU htxm hr0 (htxi.trans hid0.symm)
    have h2 : tx.status ≠ .confirmed := by rw [htx0]; exact hc
    by_cases h1 : tx.status = .error
    · intro r hr hri
      simp [h1] at hr
      have hrr : r = r0 := mem_id_unique hU hr hr0 (hri.trans hid0.symm)
      rw [hrr, ← htx0]; exact h1
    · intro r hr hri
      simp [h1, h2] at hr
      rcases hr with ⟨a, ha, hfa⟩
      by_cases haid : a.transaction_id = i
      · rw [← hfa]; simp [haid]
      · rw [← hfa] at hri
        simp [haid] at hri

/-- Once every row with a given id is `error`, further `error` updates keep
it that way. -/
lemma utdb_keeps_error {g : String → Option (Option Nat)} {db : List Tx} {i j : Nat}
    (h : ∀ r ∈ db, r.transaction_id = i → r.status = .error) :
    ∀ r ∈ update_transaction_db g db j .error, r.transaction_id = i → r.status = .error := by
  intro r hr hri
  rcases utdb_mem hr with hmem | ⟨_, hst⟩
  · exact h r hmem hri
  · exact hst

/-- `cascadeError` preserves "every row with this id is `error`". -/
lemma cascadeError_keeps_error {g : String → Option (Option Nat)} {i : Nat} :
    ∀ (ts db : List Tx), (∀ r ∈ db, r.transaction_id = i → r.status = .error) →
    ∀ r ∈ cascadeError g db ts, r.transaction_id = i → r.status = .error := by
  intro ts
  induction ts with
  | nil => intro db h; simpa [cascadeError] using h
  | cons v rest ih =>
    intro db h
    simpa [cascadeError] using ih _ (utdb_keeps_error h)

/-- Every original row has an image after a cascade: same id, and either the
original status or `error`. -/
lemma cascadeError_image {g : String → Option (Option Nat)} :
    ∀ (ts db : List Tx) {r : Tx}, r ∈ db →
    ∃ r' ∈ cascadeError g db ts, r'.transaction_id = r.transaction_id ∧
      (r'.status = r.status ∨ r'.status = .error) := by
  intro ts
  induction ts with
  | nil =>
    intro db r hr
    exact ⟨r, by simpa [cascadeError] using hr, rfl, Or.inl rfl⟩
  | cons v rest ih =>
    intro db r hr
    rcases utdb_image g v.transaction_id .error hr with
      ⟨r1, hr1, hid1, hst1⟩
    rcases ih _ hr1 with ⟨r', hr', hid', hst'⟩
    refine ⟨r', by simpa [cascadeError] using hr', hid'.trans hid1, ?_⟩
    rcases hst' with h' | h'
    · rcases hst1 with h1 | h1
      · exact Or.inl (h'.trans h1)
      · exact Or.inr (h'.trans h1)
    · exact Or.inr h'

/-- Cascades preserve uniqueness of primary keys. -/
lemma cascadeError_uniqueIds {g : String → Option (Option Nat)} :
    ∀ (ts db : List Tx), UniqueIds db → UniqueIds (cascadeError g db ts) := by
  intro ts
  induction ts with
  | nil => intro db h; simpa [cascadeError] using h
  | cons v rest ih =>
    intro db h
    simpa [cascadeError] using ih _ (utdb_uniqueIds h)

/-- The cascade at `manager.py` lines 121-126 really makes every candidate's
row `error`: if `u` is one of the cascaded candidates and the table holds a
non-`confirmed` row with `u`'s id, then after the cascade every row with that
id is `error`. -/
lemma cascadeError_sets_error {g : String → Option (Option Nat)} :
    ∀ (ts db : List Tx), UniqueIds db →
    ∀ u ∈ ts, ∀ r0 ∈ db, r0.transaction_id = u.transaction_id → r0.status ≠ .confirmed →
    ∀ r ∈ cascadeError g db ts, r.transaction_id = u.transaction_id → r.status = .error := by
  intro ts
  induction ts with
  | nil => intro db _ u hu; cases hu
  | cons v rest ih =>
    intro db hU u hu r0 hr0 hid hc
    rcases List.mem_cons.mp hu with rfl | hu'
    · have h1 : ∀ r ∈ update_transaction_db g db u.transaction_id .error,
          r.transaction_id = u.transaction_id → r.status = .error :=
        utdb_sets_error hU hr0 hid hc
      intro r hr hri
      exact cascadeError_keeps_error rest _ h1 r (by simpa [cascadeError] using hr) hri
    · rcases utdb_image g v.transaction_id .error hr0 with
        ⟨r1, hr1, hid1, hst1⟩
      have hc1 : r1.status ≠ .confirmed := by
        rcases hst1 with h | h <;> rw [h]
        · exact hc
        · simp
      intro r hr hri
      exact ih _ (utdb_uniqueIds hU) u hu' r1 hr1 (hid1.trans hid) hc1 r
        (by simpa [cascadeError] using hr) hri

/-- Once `previous_error` is set, the rest of the pass only cascades `error`
to the remaining candidates and records their recipients for re-checking. -/
lemma passLoopF_prevError (env : PassEnv) :
    ∀ (fuel : Nat) (ts : List Tx) (s : LoopState), ts.length ≤ fuel → s.prevError = true →
    passLoopF env fuel ts s =
      { s with
        db := cascadeError env.getTxByHash s.db ts
        toCheck := s.toCheck ++ ts.map fun t => t.to_address } := by
  intro fuel
  induction fuel with
  | zero =>
    intro ts s hlen hp
    cases ts with
    | nil => simp [passLoopF, cascadeError]
    | cons t rest => simp at hlen
  | succ n ih =>
    intro ts s hlen hp
    cases ts with
    | nil => simp [passLoopF, cascadeError]
    | cons t rest =>
      rw [passLoopF]
      simp only [hp, if_true]
      rw [ih rest _ (by simpa using hlen) (by simp [hp])]
      simp [cascadeError, List.append_assoc]

/-- `passLoop` version of the cascade lemma. -/
lemma passLoop_prevError (env : PassEnv) (ts : List Tx) (s : LoopState)
    (hp : s.prevError = true) :
    passLoop env ts s =
      { s with
        db := cascadeError env.getTxByHash s.db ts
        toCheck := s.toCheck ++ ts.map fun t => t.to_address } :=
  passLoopF_prevError env ts.length ts s le_rfl hp

/-- A candidate whose nonce matches the expected or the network nonce goes
straight to the balance / gas / broadcast handling. -/
lemma passLoop_cons_sendStep (env : PassEnv) (t : Tx) (rest : List Tx) (s : LoopState)
    (hprev : s.prevError = false)
    (hnonce : t.nonce = s.nonce ∨ t.nonce = env.networkNonce) :
    passLoop env (t :: rest) s =
      match sendStep env t rest s with
      | .stop s' => s'
      | .next s' => passLoop env rest s' := by
  have hn : ¬ (t.nonce ≠ s.nonce ∧ t.nonce ≠ env.networkNonce) := by
    rcases hnonce with h | h <;> simp [h]
  show passLoopF env (t :: rest).length (t :: rest) s = _
  rw [List.length_cons, passLoopF]
  simp only [hprev, Bool.false_eq_true, if_false, hn, if_neg]
  cases hs : sendStep env t rest s with
  | stop s' => simp
  | next s' => simp [passLoop]

lemma sendStep_gasLow (env : PassEnv) (t : Tx) (rest : List Tx) (s : LoopState)
    (hcost : txCost t ≤ s.balance)
    (hsl : env.safeLow.getD 0 > t.gas_price) :
    sendStep env t rest s = .stop { s with
      retry60 := true
      db := markNewQueued env.getTxByHash s.db (t :: rest) } := by
  unfold sendStep
  rw [if_pos hcost, if_pos hsl]

lemma sendStep_badSig (env : PassEnv) (t : Tx) (rest : List Tx) (s : LoopState)
    (hcost : txCost t ≤ s.balance)
    (hsl : ¬ env.safeLow.getD 0 > t.gas_price)
    (hrec : env.recover t ≠ env.addr) :
    sendStep env t rest s = .next { s with
      prevError := true
      db := update_transaction_db env.getTxByHash s.db t.transaction_id .error
      toCheck := s.toCheck ++ [t.to_address] } := by
  unfold sendStep
  rw [if_pos hcost, if_neg hsl, if_pos hrec]

lemma sendStep_infeasible (env : PassEnv) (t : Tx) (rest : List Tx) (s : LoopState)
    (hcost : ¬ txCost t ≤ s.balance)
    (hpend : s.balance + pendingReceived s.db env.addr env.lastBlock < txCost t) :
    sendStep env t rest s = .next { s with
      prevError := true
      db := update_transaction_db env.getTxByHash s.db t.transaction_id .error
      toCheck := s.toCheck ++ [t.to_address] } := by
  unfold sendStep
  rw [if_neg hcost, if_pos hpend]

lemma sendStep_waitFunding (env : PassEnv) (t : Tx) (rest : List Tx) (s : LoopState)
    (hcost : ¬ txCost t ≤ s.balance)
    (hpend : ¬ s.balance + pendingReceived s.db env.addr env.lastBlock < txCost t) :
    sendStep env t rest s = .stop { s with
      db := markNewQueued env.getTxByHash s.db (t :: rest)
      toCheck := s.toCheck ++
        (if hasNewlyConfirmedIn s.db env.addr env.lastBlock then [env.addr] else []) } := by
  unfold sendStep
  rw [if_neg hcost, if_neg hpend]

/-- One candidate step either leaves the broadcast log alone or appends the
candidate, and it only appends after the recovered sender matched the queue
address. -/
lemma sendStep_sent (env : PassEnv) (t : Tx) (rest : List Tx) (s s' : LoopState)
    (h : sendStep env t rest s = .next s' ∨ sendStep env t rest s = .stop s') :
    s'.sent = s.sent ∨ (s'.sent = s.sent ++ [t] ∧ env.recover t = env.addr) := by
  unfold sendStep at h
  by_cases h1 : txCost t ≤ s.balance
  · rw [if_pos h1] at h
    by_cases h2 : env.safeLow.getD 0 > t.gas_price
    · rw [if_pos h2] at h
      rcases h with h | h <;> simp at h
      rw [← h]; left; rfl
    · rw [if_neg h2] at h
      by_cases h3 : env.recover t ≠ env.addr
      · rw [if_pos h3] at h
        rcases h with h | h <;> simp at h
        rw [← h]; left; rfl
      · rw [if_neg h3] at h
        have hr : env.recover t = env.addr := not_not.mp h3
        cases ho : env.sendOutcome t with
        | ok =>
          rw [ho] at h
          rcases h with h | h <;> simp at h
          rw [← h]; exact Or.inr ⟨rfl, hr⟩
        | nonceLowOrImported =>
          rw [ho] at h
          cases hg : env.getTxByHash t.hash with
          | none =>
            rw [hg] at h
            rcases h with h | h <;> simp at h
            rw [← h]; exact Or.inr ⟨rfl, hr⟩
          | some bnOpt =>
            cases bnOpt with
            | none =>
              rw [hg] at h
              rcases h with h | h <;> simp at h
              rw [← h]; exact Or.inr ⟨rfl, hr⟩
            | some bn =>
              rw [hg] at h
              rcases h with h | h <;> simp at h
              rw [← h]; exact Or.inr ⟨rfl, hr⟩
        | otherError =>
          rw [ho] at h
          rcases h with h | h <;> simp at h
          rw [← h]; exact Or.inr ⟨rfl, hr⟩
  · rw [if_neg h1] at h
    by_cases h4 : s.balance + pendingReceived s.db env.addr env.lastBlock < txCost t
    · rw [if_pos h4] at h
      rcases h with h | h <;> simp at h
      rw [← h]; left; rfl
    · rw [if_neg h4] at h
      rcases h with h | h <;> simp at h
      rw [← h]; left; rfl

/-- Continuing a pass through a candidate step keeps the broadcast-log
invariant "every broadcast row's recovered sender is the queue address". -/
lemma sendStep_then_sent (env : PassEnv) (t : Tx) (rest : List Tx) (s : LoopState) (n : Nat)
    (hs : ∀ u ∈ s.sent, env.recover u = env.addr)
    (ih : ∀ (ts : List Tx) (s1 : LoopState), (∀ u ∈ s1.sent, env.recover u = env.addr) →
          ∀ u ∈ (passLoopF env n ts s1).sent, env.recover u = env.addr) :
    ∀ u ∈ (match sendStep env t rest s with
           | .stop s' => s'
           | .next s' => passLoopF env n rest s').sent, env.recover u = env.addr := by
  have step : ∀ s', (sendStep env t rest s = .next s' ∨ sendStep env t rest s = .stop s') →
      ∀ u ∈ s'.sent, env.recover u = env.addr := by
    intro s' h u hu
    rcases sendStep_sent env t rest s s' h with heq | ⟨heq, hrec⟩
    · exact hs u (heq ▸ hu)
    · rw [heq] at hu
      rcases List.mem_append.mp hu with hu | hu
      · exact hs u hu
      · rw [List.mem_singleton.mp hu]; exact hrec
  cases hss : sendStep env t rest s with
  | stop s' => exact step s' (Or.inr hss)
  | next s' => exact ih rest s' (step s' (Or.inl hss))

/-- No matter how a pass unfolds, every row it hands to
`eth_sendRawTransaction` has a signature recovering to the queue address. -/
lemma passLoopF_sent (env : PassEnv) :
    ∀ (fuel : Nat) (ts : List Tx) (s : LoopState),
    (∀ u ∈ s.sent, env.recover u = env.addr) →
    ∀ u ∈ (passLoopF env fuel ts s).sent, env.recover u = env.addr := by
  intro fuel
  induction fuel with
  | zero =>
    intro ts s hs
    cases ts with
    | nil => simpa [passLoopF] using hs
    | cons t rest => simpa [passLoopF] using hs
  | succ n ih =>
    intro ts s hs
    cases ts with
    | nil => simpa [passLoopF] using hs
    | cons t rest =>
      intro u hu
      rw [passLoopF] at hu
      by_cases hp : s.prevError
      · simp only [hp, if_true] at hu
        exact ih rest _ (by simpa using hs) u hu
      · simp only [hp, Bool.false_eq_true, if_false] at hu
        by_cases hn : t.nonce ≠ s.nonce ∧ t.nonce ≠ env.networkNonce
        · rw [if_pos hn] at hu
          by_cases hnew : t.status = .new
          · rw [if_pos hnew] at hu
            cases hf : s.db.find? fun o =>
                decide (o.from_address = env.addr ∧ o.nonce = t.nonce ∧ o.hash ≠ t.hash) with
            | none =>
              simp only [hf] at hu
              exact sendStep_then_sent env t rest s n hs ih u hu
            | some old_tx =>
              simp only [hf] at hu
              by_cases ho1 : old_tx.status = .error
              · rw [if_pos ho1] at hu
                exact sendStep_then_sent env t rest s n hs ih u hu
              · rw [if_neg ho1] at hu
                by_cases ho2 : old_tx.status = .unconfirmed ∨ old_tx.status = .confirmed
                · rw [if_pos ho2] at hu
                  exact ih rest _ (by simpa using hs) u hu
                · rw [if_neg ho2] at hu
                  by_cases ho3 : t.nonce > old_tx.nonce
                  · rw [if_pos ho3] at hu
                    exact sendStep_then_sent env t
                      (removeFirstById old_tx.transaction_id rest) _ n (by simpa using hs) ih u hu
                  · rw [if_neg ho3] at hu
                    simpa using hs u (by simpa using hu)
          · rw [if_neg hnew] at hu
            by_cases hq : t.status = .queued
            · rw [if_pos hq] at hu
              exact ih rest _ (by simpa using hs) u hu
            · rw [if_neg hq] at hu
              simpa using hs u (by simpa using hu)
        · rw [if_neg hn] at hu
          exact sendStep_then_sent env t rest s n hs ih u hu

/-- Safety of a whole pass: everything broadcast recovers to the address. -/
lemma processQueue_sent (env : PassEnv) (db : List Tx) :
    ∀ u ∈ (processQueue env db).sent, env.recover u = env.addr := by
  unfold processQueue
  by_cases he : (sortByNonce (db.filter fun t =>
      decide (t.from_address = env.addr ∧ (t.status = .new ∨ t.status = .queued) ∧
              t.hasSignature = true))).isEmpty
  · simp only [he, if_true]
    intro u hu
    simp at hu
  · simp only [he, Bool.false_eq_true, if_false]
    intro u hu
    exact passLoopF_sent env _ _ _ (by intro v hv; cases hv) u hu

/-! ## Claim C2 -/

/-- Claim C2: every `update_transaction` call on a transaction whose stored
status is `confirmed` leaves both tables unchanged and dispatches no
notification — `confirmed → confirmed` is an idempotent no-op (line 313) and
`confirmed → anything` is rejected (lines 324-326), both before any write or
rendering (token branch included). -/
theorem claim_C2_confirmed_is_terminal
    (env : UpdateEnv) (db : List Tx) (tokenDb : List TokenTx) (tokens : List String)
    (i : Nat) (st : Status) (tx : Tx)
    (hfind : (db.find? fun t => decide (t.transaction_id = i)) = some tx)
    (hconf : tx.status = .confirmed) :
    update_transaction env db tokenDb tokens i st = ⟨db, tokenDb, [], [], false⟩ := by
  unfold update_transaction
  simp only [hfind]
  by_cases h1 : tx.status = st
  · simp [h1]
  · simp [h1, hconf]

theorem claim_C2_witness :
    ((([txC2] : List Tx).find? fun t => decide (t.transaction_id = 1)) = some txC2 ∧
     txC2.status = .confirmed) ∧
    update_transaction envC2 [txC2] [] [] 1 .error = ⟨[txC2], [], [], [], false⟩ :=
  ⟨⟨by decide, by decide⟩,
   claim_C2_confirmed_is_terminal envC2 [txC2] [] [] 1 .error txC2 (by decide) (by decide)⟩

/-! ## Claim C9 -/

/-- The notifications of an `update_transaction` call that reaches rendering
on a transaction with no (known-token) `token_transactions` rows: the
suppression check, else the dispatch of the single plain-payment message. -/
lemma update_transaction_plain_notifications
    (env : UpdateEnv) (db : List Tx) (tokenDb : List TokenTx) (tokens : List String)
    (i : Nat) (st : Status) (tx : Tx)
    (hfind : (db.find? fun t => decide (t.transaction_id = i)) = some tx)
    (hdiff : tx.status ≠ st) (hnc : tx.status ≠ .confirmed)
    (hwrite : st = .confirmed → ∃ bn, env.getTxByHash tx.hash = some (some bn))
    (hplain : (tokenTxsFor tokenDb tokens i).isEmpty = true) :
    (update_transaction env db tokenDb tokens i st).notifications =
      if st = .unconfirmed ∧ tx.status = .queued then []
      else dispatchMessages tx.status
        [(tx.from_address, tx.to_address,
          (if st = .queued then Status.unconfirmed else st), MsgKind.payment)] := by
  unfold update_transaction
  simp only [hfind]
  rw [if_neg fun h => hdiff h, if_neg hnc]
  have hw : ∃ db2, txWrite env.getTxByHash db i st tx = some db2 := by
    unfold txWrite
    by_cases h3 : st = .confirmed
    · rcases hwrite h3 with ⟨bn, hbn⟩
      rw [if_pos h3, hbn]
      exact ⟨_, rfl⟩
    · rw [if_neg h3]
      exact ⟨_, rfl⟩
  rcases hw with ⟨db2, hdb2⟩
  simp only [hdb2]
  by_cases hsup : st = .unconfirmed ∧ tx.status = .queued
  · rw [if_pos hsup, if_pos hsup]
  · rw [if_neg hsup, if_neg hsup]
    rw [hplain]
    simp

/-- Membership in the dispatch of one message: only the message's endpoints,
with its status and kind. -/
lemma mem_dispatch_singleton {stored : Status} {fromA toA : String} {st1 : Status}
    {k : MsgKind} {p : String × Status × MsgKind}
    (hp : p ∈ dispatchMessages stored [(fromA, toA, st1, k)]) :
    p = (fromA, st1, k) ∨ p = (toA, st1, k) := by
  simp only [dispatchMessages] at hp
  rcases List.mem_cons.mp hp with rfl | hp
  · exact Or.inl rfl
  · split_ifs at hp <;> simp_all

/-- Claim C9 counterexamples: (a) for the contract-deployment marker
`to_address = "0x"`, a transition `unconfirmed → error` — an "every other
transition" case in the claim's terms — notifies only the sender, not both
endpoints; (b) for a transaction carrying a (non-WETH) token transfer, a
transition `new → unconfirmed` — which the claim says notifies both
endpoints — dispatches no notification at all, because the token branch at
`manager.py` lines 372-434 only appends messages for confirming token rows or
WETH deposits/withdrawals. -/
theorem claim_C9_counterexample :
    (txC9bad.status = .unconfirmed ∧ txC9bad.to_address = "0x" ∧
     (update_transaction envC9 [txC9bad] [] [] 1 .error).notifications
       = [("0xa", Status.error, MsgKind.payment)]) ∧
    (txC9tok.status = .new ∧ txC9tok.to_address ≠ "0x" ∧
     tokenTxsFor [ttC9tok] ["0xtok"] 2 ≠ [] ∧
     (update_transaction envC9 [txC9tok] [ttC9tok] ["0xtok"] 2 .unconfirmed).notifications
       = []) := by decide

/-- Claim C9 (amended): for every status update on a plain value transfer (a
transaction with no `token_transactions` rows for a known token — the token
counterexample forces this proviso) that reaches notification rendering — row
found, stored status neither the new status nor `confirmed`, and for a
`confirmed` update the node reports a block number — (1) a transition to
`queued` is dispatched with payload status `unconfirmed`; (2) a transition
`queued → unconfirmed` dispatches nothing; (3) `new → error` notifies only
the sender; (4) every other transition notifies both endpoints, except
contract deployments (`to_address = "0x"`), which notify only the sender (the
deployment counterexample forces this proviso). -/
theorem claim_C9_notification_rules
    (env : UpdateEnv) (db : List Tx) (tokenDb : List TokenTx) (tokens : List String)
    (i : Nat) (st : Status) (tx : Tx)
    (hfind : (db.find? fun t => decide (t.transaction_id = i)) = some tx)
    (hdiff : tx.status ≠ st) (hnc : tx.status ≠ .confirmed)
    (hwrite : st = .confirmed → ∃ bn, env.getTxByHash tx.hash = some (some bn))
    (hplain : (tokenTxsFor tokenDb tokens i).isEmpty = true) :
    (st = .queued → (update_transaction env db tokenDb tokens i st).notifications ≠ [] ∧
       ∀ p ∈ (update_transaction env db tokenDb tokens i st).notifications,
         p.2.1 = Status.unconfirmed) ∧
    (st = .unconfirmed → tx.status = .queued →
       (update_transaction env db tokenDb tokens i st).notifications = []) ∧
    (tx.status = .new → st = .error →
       (update_transaction env db tokenDb tokens i st).notifications
         = [(tx.from_address, Status.error, MsgKind.payment)]) ∧
    (tx.to_address ≠ "0x" → ¬ (st = .unconfirmed ∧ tx.status = .queued) →
     ¬ (tx.status = .new ∧ st = .error) →
       (update_transaction env db tokenDb tokens i st).notifications =
         [(tx.from_address, (if st = .queued then Status.unconfirmed else st), MsgKind.payment),
          (tx.to_address, (if st = .queued then Status.unconfirmed else st), MsgKind.payment)]) := by
  rw [update_transaction_plain_notifications env db tokenDb tokens i st tx
      hfind hdiff hnc hwrite hplain]
  refine ⟨?_, ?_, ?_, ?_⟩
  · intro hq
    subst hq
    have hsup : ¬ (Status.queued = Status.unconfirmed ∧ tx.status = Status.queued) := by simp
    rw [if_neg hsup]
    constructor
    · simp [dispatchMessages]
    · intro p hp
      rcases mem_dispatch_singleton hp with rfl | rfl <;> rfl
  · intro hu hqold
    rw [if_pos ⟨hu, hqold⟩]
  · intro hnew herr
    subst herr
    have hsup : ¬ (Status.error = Status.unconfirmed ∧ tx.status = Status.queued) := by simp
    rw [if_neg hsup]
    simp [dispatchMessages, hnew]
  · intro hto hsup hne
    rw [if_neg hsup]
    simp only [dispatchMessages]
    rw [if_neg hto]
    by_cases hnew : tx.status = .new
    · rw [if_pos hnew]
      have hst1 : (if st = .queued then Status.unconfirmed else st) ≠ Status.error := by
        by_cases hq : st = .queued
        · rw [if_pos hq]; simp
        · rw [if_neg hq]; intro h; exact hne ⟨hnew, h⟩
      rw [if_pos hst1]
      rfl
    · rw [if_neg hnew]
      rfl

theorem claim_C9_witness :
    (txC9good.status ≠ Status.unconfirmed ∧ txC9good.to_address ≠ "0x" ∧
     (tokenTxsFor [] [] 1).isEmpty = true) ∧
    (update_transaction envC9 [txC9good] [] [] 1 .unconfirmed).notifications
      = [("0xa", Status.unconfirmed, MsgKind.payment),
         ("0xb", Status.unconfirmed, MsgKind.payment)] := by
  refine ⟨⟨by decide, by decide, by decide⟩, ?_⟩
  have h := claim_C9_notification_rules envC9 [txC9good] [] [] 1 .unconfirmed txC9good
    (by decide) (by decide) (by decide) (by intro h; exact absurd h (by decide)) (by decide)
  have h4 := h.2.2.2 (by decide) (by decide) (by decide)
  simpa using h4

/-! ## Claim C3 -/

/-- Claim C3: a submission that passes the duplicate-row and balance checks
is validated against `max(cached hint, chain nonce)`: it is rejected
`invalid_nonce` / "Provided nonce is too low" exactly when its nonce is
strictly lower, and `invalid_nonce` / "Provided nonce is too high" exactly
when strictly higher. -/
theorem claim_C3_nonce_validation
    (db : List DbRow) (tx : SignedTx) (cachedNonce : Option Nat)
    (nwNonce chainBalance : Nat) (sendOk : Bool) (userTokenId : Option String)
    (hdup : (db.any fun r => decide (r.from_address = tx.sender ∧ r.nonce = tx.nonce ∧
             r.last_status ≠ .error)) = false)
    (hbal : ¬ (get_balances chainBalance db tx.sender).2 <
             ((tx.value + tx.startgas * tx.gasprice : Nat) : Int)) :
    ((send_transaction db tx cachedNonce nwNonce chainBalance sendOk userTokenId).result
        = .rejected .nonceTooLow ↔ tx.nonce < effectiveNonce cachedNonce nwNonce) ∧
    ((send_transaction db tx cachedNonce nwNonce chainBalance sendOk userTokenId).result
        = .rejected .nonceTooHigh ↔ effectiveNonce cachedNonce nwNonce < tx.nonce) ∧
    effectiveNonce cachedNonce nwNonce = max (cachedNonce.getD 0) nwNonce ∧
    errMessage .nonceTooLow = "Provided nonce is too low" ∧
    errMessage .nonceTooHigh = "Provided nonce is too high" ∧
    errId .nonceTooLow = "invalid_nonce" ∧ errId .nonceTooHigh = "invalid_nonce" := by
  refine ⟨?_, ?_, ?_, rfl, rfl, rfl, rfl⟩
  · unfold send_transaction
    simp only [hdup, Bool.false_eq_true, if_false]
    rw [if_neg hbal]
    by_cases hlow : tx.nonce < effectiveNonce cachedNonce nwNonce
    · rw [if_pos hlow]
      exact iff_of_true rfl hlow
    · rw [if_neg hlow]
      refine iff_of_false ?_ hlow
      split_ifs <;> simp
  · unfold send_transaction
    simp only [hdup, Bool.false_eq_true, if_false]
    rw [if_neg hbal]
    by_cases hhigh : effectiveNonce cachedNonce nwNonce < tx.nonce
    · rw [if_neg (by omega : ¬ tx.nonce < effectiveNonce cachedNonce nwNonce), if_pos hhigh]
      exact iff_of_true rfl hhigh
    · refine iff_of_false ?_ hhigh
      split_ifs <;> simp
  · unfold effectiveNonce
    cases cachedNonce with
    | none => simp
    | some c =>
      simp only [Option.getD_some]
      split <;> omega

theorem claim_C3_witness :
    ((send_transaction [] txC3 (some 4) 1 10000000 true (some "tokid")).result
        = .rejected .nonceTooLow ↔ txC3.nonce < effectiveNonce (some 4) 1) ∧
    errMessage .nonceTooLow = "Provided nonce is too low" :=
  ⟨(claim_C3_nonce_validation [] txC3 (some 4) 1 10000000 true (some "tokid")
      (by decide) (by decide)).1,
   (claim_C3_nonce_validation [] txC3 (some 4) 1 10000000 true (some "tokid")
      (by decide) (by decide)).2.2.2.1⟩

/-! ## Claim C4 -/

/-- Claim C4 counterexample: the claimed "if and only if" fails without the
duplicate-row proviso — here the cost exceeds the balance, yet the rejection
is `invalid_nonce` ("Nonce already used", raised first at lines 174-181), not
`insufficient_funds`. -/
theorem claim_C4_counterexample :
    ((get_balances 5 [rowC4] "0xs").2 <
      ((txC4.value + txC4.startgas * txC4.gasprice : Nat) : Int)) ∧
    (send_transaction [rowC4] txC4 (some 3) 3 5 true (some "tok")).result
      = .rejected .invalidNonceAlreadyUsed ∧
    (send_transaction [rowC4] txC4 (some 3) 3 5 true (some "tok")).result
      ≠ .rejected .insufficientFunds := by decide

/-- Claim C4 (amended): among submissions that pass the duplicate-row check,
`send_transaction` rejects with `insufficient_funds` exactly when
`value + gas * gas_price` exceeds the sender's balance (confirmed chain
balance minus the outstanding cost of the sender's own unconfirmed outgoing
rows, inbound pending funds ignored); on that rejection the transactions
table and the cached nonce are unchanged and nothing was sent to the
network. -/
theorem claim_C4_insufficient_funds
    (db : List DbRow) (tx : SignedTx) (cachedNonce : Option Nat)
    (nwNonce chainBalance : Nat) (sendOk : Bool) (userTokenId : Option String)
    (hdup : (db.any fun r => decide (r.from_address = tx.sender ∧ r.nonce = tx.nonce ∧
             r.last_status ≠ .error)) = false) :
    ((send_transaction db tx cachedNonce nwNonce chainBalance sendOk userTokenId).result
        = .rejected .insufficientFunds ↔
      (get_balances chainBalance db tx.sender).2 <
        ((tx.value + tx.startgas * tx.gasprice : Nat) : Int)) ∧
    ((get_balances chainBalance db tx.sender).2 <
        ((tx.value + tx.startgas * tx.gasprice : Nat) : Int) →
      send_transaction db tx cachedNonce nwNonce chainBalance sendOk userTokenId
        = ⟨.rejected .insufficientFunds, db, cachedNonce, false⟩) := by
  constructor
  · unfold send_transaction
    simp only [hdup, Bool.false_eq_true, if_false]
    by_cases hb : (get_balances chainBalance db tx.sender).2 <
        ((tx.value + tx.startgas * tx.gasprice : Nat) : Int)
    · rw [if_pos hb]
      exact iff_of_true rfl hb
    · rw [if_neg hb]
      refine iff_of_false ?_ hb
      split_ifs <;> simp
  · intro hb
    unfold send_transaction
    simp only [hdup, Bool.false_eq_true, if_false]
    rw [if_pos hb]

theorem claim_C4_witness :
    ((get_balances 5 ([] : List DbRow) "0xs").2 <
       ((txC4.value + txC4.startgas * txC4.gasprice : Nat) : Int)) ∧
    send_transaction [] txC4 (some 3) 3 5 true (some "tok")
      = ⟨.rejected .insufficientFunds, [], some 3, false⟩ :=
  ⟨by decide,
   (claim_C4_insufficient_funds [] txC4 (some 3) 3 5 true (some "tok") (by decide)).2
     (by decide)⟩

/-! ## Claim C5 -/

/-- Claim C5: whenever `send_transaction` returns a hash to the client (i.e.
`eth_sendRawTransaction` succeeded), it has set the cached nonce hint to
`nonce + 1` and appended the transaction row, whose `sender_token_id` is the
authenticated client identity passed in (which the code nowhere requires to
match `from_address`) and whose status is the schema default, modelled from
the spec as `unconfirmed`. -/
theorem claim_C5_success_effects
    (db : List DbRow) (tx : SignedTx) (cachedNonce : Option Nat)
    (nwNonce chainBalance : Nat) (sendOk : Bool) (userTokenId : Option String) (h : String)
    (hacc : (send_transaction db tx cachedNonce nwNonce chainBalance sendOk userTokenId).result
      = .accepted h) :
    send_transaction db tx cachedNonce nwNonce chainBalance sendOk userTokenId =
      ⟨.accepted tx.hash,
       db ++ [⟨tx.hash, tx.sender, tx.to_address, tx.nonce, tx.value,
               tx.startgas * tx.gasprice, userTokenId, defaultInsertStatus⟩],
       some (tx.nonce + 1), true⟩ ∧
    defaultInsertStatus = .unconfirmed ∧ h = tx.hash := by
  unfold send_transaction at hacc ⊢
  by_cases h1 : (db.any fun r => decide (r.from_address = tx.sender ∧ r.nonce = tx.nonce ∧
      r.last_status ≠ .error)) = true
  · rw [if_pos h1] at hacc; simp at hacc
  · rw [if_neg h1] at hacc ⊢
    by_cases hb : (get_balances chainBalance db tx.sender).2 <
        ((tx.value + tx.startgas * tx.gasprice : Nat) : Int)
    · rw [if_pos hb] at hacc; simp at hacc
    · rw [if_neg hb] at hacc ⊢
      by_cases hlow : tx.nonce < effectiveNonce cachedNonce nwNonce
      · rw [if_pos hlow] at hacc; simp at hacc
      · rw [if_neg hlow] at hacc ⊢
        by_cases hhigh : effectiveNonce cachedNonce nwNonce < tx.nonce
        · rw [if_pos hhigh] at hacc; simp at hacc
        · rw [if_neg hhigh] at hacc ⊢
          by_cases hok : sendOk = true
          · rw [if_pos hok] at hacc ⊢
            simp only [SendResult.accepted.injEq] at hacc
            exact ⟨rfl, rfl, hacc.symm⟩
          · rw [if_neg hok] at hacc; simp at hacc

theorem claim_C5_witness :
    (send_transaction [] txC5 (some 3) 1 10000000 true (some "tokid")).result
      = .accepted "0xhash5" ∧
    send_transaction [] txC5 (some 3) 1 10000000 true (some "tokid") =
      ⟨.accepted txC5.hash,
       [] ++ [⟨txC5.hash, txC5.sender, txC5.to_address, txC5.nonce, txC5.value,
               txC5.startgas * txC5.gasprice, some "tokid", defaultInsertStatus⟩],
       some (txC5.nonce + 1), true⟩ :=
  ⟨by decide,
   (claim_C5_success_effects [] txC5 (some 3) 1 10000000 true (some "tokid") "0xhash5"
      (by decide)).1⟩

/-! ## Claim C8 -/

lemma queueRun_pos : ∀ (flag : Bool) (intf : List Bool), 1 ≤ queueRun flag intf := by
  intro flag intf
  cases intf <;> simp [queueRun]

lemma queueRun_false_eq : ∀ intf : List Bool, queueRun false intf = 1 + leadingTrues intf := by
  intro intf
  induction intf with
  | nil => simp [queueRun, leadingTrues]
  | cons b rest ih =>
    by_cases hb : b = true
    · simp [queueRun, leadingTrues, hb, ih]
    · simp at hb
      simp [queueRun, leadingTrues, hb]

/-- Claim C8: per-address mutual exclusion of the queue processor — a call
that finds the `processing` lock held only sets the rerun flag and performs
zero passes; a call that acquires the lock performs at least one pass,
releases the lock and leaves the flag cleared; after each pass the flag is
read-and-cleared and exactly one further pass starts per set flag, so the
number of passes is one more than the run of consecutive passes during which
the flag was set. -/
theorem claim_C8_queue_lock :
    (∀ (c : CacheState) (intf : List Bool), c.processing = true →
       process_transaction_queue c intf = ({ processing := true, rerun := true }, 0)) ∧
    (∀ (c : CacheState) (intf : List Bool), c.processing = false →
       (process_transaction_queue c intf).1 = ⟨false, false⟩ ∧
       1 ≤ (process_transaction_queue c intf).2) ∧
    (∀ intf : List Bool,
       (process_transaction_queue ⟨false, false⟩ intf).2 = 1 + leadingTrues intf) ∧
    (∀ (b : Bool) (rest : List Bool),
       queueRun false (b :: rest) = 1 + (if b then queueRun false rest else 0)) := by
  refine ⟨?_, ?_, ?_, ?_⟩
  · intro c intf hp
    cases c with
    | mk p r =>
      simp only at hp
      subst hp
      simp [process_transaction_queue]
  · intro c intf hp
    cases c with
    | mk p r =>
      simp only at hp
      subst hp
      exact ⟨by simp [process_transaction_queue], by
        simpa [process_transaction_queue] using queueRun_pos r intf⟩
  · intro intf
    simpa [process_transaction_queue] using queueRun_false_eq intf
  · intro b rest
    simp [queueRun]

theorem claim_C8_witness :
    ((⟨true, false⟩ : CacheState).processing = true ∧
     process_transaction_queue ⟨true, false⟩ [true] = (⟨true, true⟩, 0)) ∧
    ((⟨false, false⟩ : CacheState).processing = false ∧
     (process_transaction_queue ⟨false, false⟩ [true, false]).2
       = 1 + leadingTrues [true, false]) :=
  ⟨⟨rfl, claim_C8_queue_lock.1 ⟨true, false⟩ [true] rfl⟩,
   ⟨rfl, claim_C8_queue_lock.2.2.1 [true, false]⟩⟩

/-! ## Claim C6 -/

/-- Claim C6 counterexample: a candidate whose gas price (10) is below the
cached safe-low floor (50) but whose cost exceeds the working balance is set
to `error` — not marked `queued`, no 60 s retry is scheduled and nothing is
broadcast — because the source checks the floor only inside the
`balance >= cost` branch (`manager.py` lines 201-214). -/
theorem claim_C6_counterexample :
    envC6.safeLow = some 50 ∧ 50 > txC6.gas_price ∧ txC6.status = .new ∧
    (processQueue envC6 [txC6]).retry60 = false ∧
    ((processQueue envC6 [txC6]).db.map fun t => t.status) = [.error] ∧
    (processQueue envC6 [txC6]).sent = [] := by decide

/-- Claim C6 (amended): for a candidate reached with no previous error, a
nonce passing the check and a cost covered by the working balance — the
proviso the counterexample forces — a gas price strictly below the cached
safe-low floor makes the processor mark the remaining `new` rows `queued`
without broadcasting anything, schedule a retry pass in 60 s, and stop the
pass. -/
theorem claim_C6_gas_floor (env : PassEnv) (t : Tx) (rest : List Tx) (s : LoopState)
    (hprev : s.prevError = false)
    (hnonce : t.nonce = s.nonce ∨ t.nonce = env.networkNonce)
    (hcost : txCost t ≤ s.balance)
    (hsl : env.safeLow.getD 0 > t.gas_price) :
    passLoop env (t :: rest) s =
      { s with
        retry60 := true
        db := markNewQueued env.getTxByHash s.db (t :: rest) } := by
  rw [passLoop_cons_sendStep env t rest s hprev hnonce,
      sendStep_gasLow env t rest s hcost hsl]

theorem claim_C6_witness :
    (sC6.prevError = false ∧ txC6.nonce = sC6.nonce ∧ txCost txC6 ≤ sC6.balance ∧
     envC6.safeLow.getD 0 > txC6.gas_price) ∧
    passLoop envC6 [txC6] sC6 =
      { sC6 with
        retry60 := true
        db := markNewQueued envC6.getTxByHash sC6.db [txC6] } :=
  ⟨⟨rfl, rfl, by decide, by decide⟩,
   claim_C6_gas_floor envC6 txC6 [] sC6 rfl (Or.inl rfl) (by decide) (by decide)⟩

/-! ## Claim C7 -/

/-- Claim C7: when a candidate's cost exceeds the working balance, the
processor compares `balance + pending_received` (the sum over inbound rows
that are `new`/`queued`/`unconfirmed` or `confirmed` above the last block,
baked into `pendingReceived`/`transactionsIn`) against the cost.  If even
that is insufficient, the candidate and every later candidate cascade to
`error` and nothing further is broadcast; otherwise the remaining `new` rows
are marked `queued` and the pass stops without broadcasting. -/
theorem claim_C7_pending_balance (env : PassEnv) (t : Tx) (rest : List Tx) (s : LoopState)
    (hprev : s.prevError = false)
    (hnonce : t.nonce = s.nonce ∨ t.nonce = env.networkNonce)
    (hcost : ¬ txCost t ≤ s.balance) :
    (s.balance + pendingReceived s.db env.addr env.lastBlock < txCost t →
       passLoop env (t :: rest) s =
         { s with
           prevError := true
           db := cascadeError env.getTxByHash s.db (t :: rest)
           toCheck := s.toCheck ++ [t.to_address] ++ rest.map fun u => u.to_address }) ∧
    (s.balance + pendingReceived s.db env.addr env.lastBlock < txCost t → UniqueIds s.db →
       ∀ u ∈ t :: rest, ∀ r0 ∈ s.db, r0.transaction_id = u.transaction_id →
         r0.status ≠ .confirmed →
         ∀ r ∈ (passLoop env (t :: rest) s).db, r.transaction_id = u.transaction_id →
           r.status = .error) ∧
    (¬ s.balance + pendingReceived s.db env.addr env.lastBlock < txCost t →
       passLoop env (t :: rest) s =
         { s with
           db := markNewQueued env.getTxByHash s.db (t :: rest)
           toCheck := s.toCheck ++
             (if hasNewlyConfirmedIn s.db env.addr env.lastBlock then [env.addr] else []) }) := by
  have hcase1 : s.balance + pendingReceived s.db env.addr env.lastBlock < txCost t →
      passLoop env (t :: rest) s =
        { s with
          prevError := true
          db := cascadeError env.getTxByHash s.db (t :: rest)
          toCheck := s.toCheck ++ [t.to_address] ++ rest.map fun u => u.to_address } := by
    intro hpend
    rw [passLoop_cons_sendStep env t rest s hprev hnonce,
        sendStep_infeasible env t rest s hcost hpend]
    dsimp only
    rw [passLoop_prevError env rest _ rfl]
    simp [cascadeError, List.append_assoc]
  refine ⟨hcase1, ?_, ?_⟩
  · intro hpend hU u hu r0 hr0 hid hc r hr hri
    rw [hcase1 hpend] at hr
    simp only at hr
    exact cascadeError_sets_error (t :: rest) s.db hU u hu r0 hr0 hid hc r hr hri
  · intro hpend
    rw [passLoop_cons_sendStep env t rest s hprev hnonce,
        sendStep_waitFunding env t rest s hcost hpend]

theorem claim_C7_witness :
    (sC7.prevError = false ∧ txC7.nonce = sC7.nonce ∧ ¬ txCost txC7 ≤ sC7.balance ∧
     sC7.balance + pendingReceived sC7.db envC7.addr envC7.lastBlock < txCost txC7) ∧
    passLoop envC7 [txC7] sC7 =
      { sC7 with
        prevError := true
        db := cascadeError envC7.getTxByHash sC7.db [txC7]
        toCheck := sC7.toCheck ++ [txC7.to_address] ++ ([] : List Tx).map fun u => u.to_address } :=
  ⟨⟨rfl, rfl, by decide, by decide⟩,
   (claim_C7_pending_balance envC7 txC7 [] sC7 rfl (Or.inl rfl) (by decide)).1 (by decide)⟩

/-! ## Claim C10 -/

/-- Claim C10: before any broadcast the sender is re-derived from the stored
signature (`manager.py` lines 216-232) — globally, every row a pass hands to
`eth_sendRawTransaction` recovers to the queue address, so a transaction
whose stored signature does not recover to its `from_address` is never
broadcast; and at the failing candidate the row is set to `error` without
being sent while all subsequent candidates cascade to `error`. -/
theorem claim_C10_signature_safety :
    (∀ (env : PassEnv) (db : List Tx) (u : Tx),
        u ∈ (processQueue env db).sent → env.recover u = env.addr) ∧
    (∀ (env : PassEnv) (t : Tx) (rest : List Tx) (s : LoopState),
        s.prevError = false → (t.nonce = s.nonce ∨ t.nonce = env.networkNonce) →
        txCost t ≤ s.balance → ¬ env.safeLow.getD 0 > t.gas_price →
        env.recover t ≠ env.addr →
        passLoop env (t :: rest) s =
          { s with
            prevError := true
            db := cascadeError env.getTxByHash s.db (t :: rest)
            toCheck := s.toCheck ++ [t.to_address] ++ rest.map fun u => u.to_address } ∧
        (UniqueIds s.db →
          ∀ u ∈ t :: rest, ∀ r0 ∈ s.db, r0.transaction_id = u.transaction_id →
            r0.status ≠ .confirmed →
            ∀ r ∈ (passLoop env (t :: rest) s).db, r.transaction_id = u.transaction_id →
              r.status = .error)) := by
  constructor
  · intro env db u hu
    exact processQueue_sent env db u hu
  · intro env t rest s hprev hnonce hcost hsl hrec
    have heq : passLoop env (t :: rest) s =
        { s with
          prevError := true
          db := cascadeError env.getTxByHash s.db (t :: rest)
          toCheck := s.toCheck ++ [t.to_address] ++ rest.map fun u => u.to_address } := by
      rw [passLoop_cons_sendStep env t rest s hprev hnonce,
          sendStep_badSig env t rest s hcost hsl hrec]
      dsimp only
      rw [passLoop_prevError env rest _ rfl]
      simp [cascadeError, List.append_assoc]
    refine ⟨heq, ?_⟩
    intro hU u hu r0 hr0 hid hc r hr hri
    rw [heq] at hr
    simp only at hr
    exact cascadeError_sets_error (t :: rest) s.db hU u hu r0 hr0 hid hc r hr hri

theorem claim_C10_witness :
    (sC10.prevError = false ∧ txCost txC10 ≤ sC10.balance ∧
     envC10.recover txC10 ≠ envC10.addr ∧
     (processQueue envC10 [txC10]).sent = []) ∧
    passLoop envC10 [txC10] sC10 =
      { sC10 with
        prevError := true
        db := cascadeError envC10.getTxByHash sC10.db [txC10]
        toCheck := sC10.toCheck ++ [txC10.to_address] ++ ([] : List Tx).map fun u => u.to_address } :=
  ⟨⟨rfl, by decide, by decide, by decide⟩,
   ((claim_C10_signature_safety.2 envC10 txC10 [] sC10 rfl (Or.inl rfl)
      (by decide) (by decide) (by decide)).1)⟩

/-! ## Claim C1 -/

/-- Claim C1: the claim (and the source's own comment at `manager.py` lines
147-148, "lets pick the one with the highest gas price and error the other")
says the overwrite is resolved by gas price; but line 149 compares
`transaction['nonce'] > old_tx['nonce']`, and the conflicting row was fetched
with `nonce = $2 = transaction['nonce']`, so the comparison is always false
and the incoming `new` row always loses.  Here the incoming row has the
strictly higher gas price (100 vs 1) yet ends `error`, while the old `queued`
row survives untouched and nothing is broadcast. -/
theorem claim_C1_code_divergence :
    txNewC1.gas_price > txOldC1.gas_price ∧
    txNewC1.nonce = txOldC1.nonce ∧ txNewC1.hash ≠ txOldC1.hash ∧
    txNewC1.status = .new ∧
    ((processQueue envC1 [txOldC1, txNewC1]).db.map fun t => (t.transaction_id, t.status))
      = [(1, .queued), (2, .error)] ∧
    (processQueue envC1 [txOldC1, txNewC1]).sent = [] := by decide

end ToshiEth
